import Mathlib

/-!
Verification of the PySIP SIP/RTP engine (src/PySIP) against its
natural-language specification.  The Python source is shallowly embedded:
pure computations become Lean functions over `Nat`/`List`/`String`, and the
coroutine bodies whose observable behaviour the claims talk about become
explicit traces of actions, translated statement by statement from the
source files `rtp_handler.py` and `sip_call.py`.
-/

namespace PySIP

/-! ### RTP packetizer (rtp_handler.py, class RtpPacket) -/

/-- Mutable state of `RtpPacket` (rtp_handler.py 163-168): the outgoing
sequence number, timestamp and SSRC (initialised from `random.randint`
ranges 200-800, 500-5000 and 1000-65530 respectively). -/
structure RtpPacketState where
  out_sequence : Nat
  out_timestamp : Nat
  out_ssrc : Nat
deriving DecidableEq

/-- `RtpPacket.get_header` (rtp_handler.py 177-187): emits the header fields
`(sequence, timestamp, ssrc)` of the current packet and advances the state
exactly as the source does: `out_sequence = (out_sequence + 1) % 65535` and
`out_timestamp = (out_timestamp + len(payload)) % 4294967295`. -/
def get_header (st : RtpPacketState) (payloadLen : Nat) :
    (Nat × Nat × Nat) × RtpPacketState :=
  ((st.out_sequence, st.out_timestamp, st.out_ssrc),
   { out_sequence := (st.out_sequence + 1) % 65535,
     out_timestamp := (st.out_timestamp + payloadLen) % 4294967295,
     out_ssrc := st.out_ssrc })

/-- The packetizer state after emitting `i` frames of `len` bytes each
(each emission calls `get_header` once, as `RTPClient`'s send loop does via
`generate_packet`). -/
def rtpAfter (st : RtpPacketState) (len : Nat) : Nat → RtpPacketState
  | 0 => st
  | i + 1 => (get_header (rtpAfter st len i) len).2

/-- Sequence number carried by packet `i` (0-based) of a send of frames of
`len` bytes from initial state `st`. -/
def seqOfPacket (st : RtpPacketState) (len i : Nat) : Nat :=
  (rtpAfter st len i).out_sequence

/-- Timestamp carried by packet `i` (0-based) of a send of frames of `len`
bytes from initial state `st`. -/
def tsOfPacket (st : RtpPacketState) (len i : Nat) : Nat :=
  (rtpAfter st len i).out_timestamp

/-! ### RFC 2833 DTMF handling (rtp_handler.py, RTPClient._handle_rfc_2833) -/

/-- A received RTP telephone-event packet exactly as `_handle_rfc_2833`
consumes it: the RTP marker bit and the raw payload bytes. -/
structure RtpEventPacket where
  marker : Bool
  payload : List Nat
deriving DecidableEq

/-- The `dtmf_mapping` table of `RTPClient._handle_rfc_2833`
(rtp_handler.py 81-83). -/
def dtmf_mapping : List String :=
  ["0", "1", "2", "3", "4", "5", "6", "7", "8", "9", "*",
   "#", "A", "B", "C", "D"]

/-- Dictionary lookup (`dict.get`) on the callback dictionary, modelling the
ordered `self.__callbacks` dict as an association list from callback-type
name to the list of registered callback identifiers. -/
def lookupCb : List (String × List Nat) → String → Option (List Nat)
  | [], _ => none
  | (k, v) :: rest, key => if k = key then some v else lookupCb rest key

/-- `RTPClient._handle_rfc_2833` (rtp_handler.py 80-98), up to the point
where control leaves the DTMF logic.  Returns `none` when the source would
raise (`payload[0]` on an empty payload, or an event byte outside the
16-entry `dtmf_mapping`); otherwise the list of `(callback id, event)`
invocations of the registered `dtmf_callback` callbacks performed for this
one packet.  The source computes the event first, returns early when the
marker bit is clear, when the callback dict is empty, or when no
`dtmf_callback` entry is registered, and otherwise awaits every registered
callback once with the event. -/
def handle_rfc_2833 (callbacksDict : List (String × List Nat))
    (p : RtpEventPacket) : Option (List (Nat × String)) :=
  match p.payload with
  | [] => none
  | b :: _ =>
    match dtmf_mapping.get? b with
    | none => none
    | some event =>
      if ¬ p.marker then some []
      else if callbacksDict = [] then some []
      else
        match lookupCb callbacksDict "dtmf_callback" with
        | none => some []
        | some cbs =>
          if cbs = [] then some [] else some (cbs.map (fun cb => (cb, event)))

/-- The receive loop dispatching a sequence of telephone-event packets to
`_handle_rfc_2833` one after the other, concatenating the callback
invocations; `none` if any packet makes the handler raise. -/
def handlePackets (callbacksDict : List (String × List Nat)) :
    List RtpEventPacket → Option (List (Nat × String))
  | [] => some []
  | p :: ps =>
    match handle_rfc_2833 callbacksDict p, handlePackets callbacksDict ps with
    | some a, some b => some (a ++ b)
    | _, _ => none

/-! ### Codec selection (rtp_handler.py, RTPClient.select_audio_codecs) -/

/-- RTP payload types as the source distinguishes them (`filters.PayloadType`
is imported by rtp_handler.py; the combinators the claims need are `PCMU`,
`PCMA` and `EVENT`, any other offered codec is represented by its payload
type number). -/
inductive PayloadType
  | PCMU
  | PCMA
  | EVENT
  | other (pt : Nat)
deriving DecidableEq

/-- `SUPPORTED_CODEC` (rtp_handler.py 14). -/
def SUPPORTED_CODEC : List PayloadType := [PayloadType.PCMU, PayloadType.PCMA]

/-- `RTPClient.select_audio_codecs` (rtp_handler.py 58-63): scan the remote
offer's rtpmap values in order, return the first codec contained in
`SUPPORTED_CODEC`; `none` models the `NoSupportedCodecsFound` raise after
the loop. -/
def select_audio_codecs : List PayloadType → Option PayloadType
  | [] => none
  | c :: rest =>
    if c ∈ SUPPORTED_CODEC then some c else select_audio_codecs rest

/-! ### Call and dialog states (filters.CallState, sip_core.DialogState)

`filters.py` and `sip_core.py` are imported by sip_call.py; the constructors
below are exactly the ones sip_call.py uses (`INITIALIZING`, `DAILING`,
`RINGING`, `ANSWERED`, `ENDED`, `FAILED`, `BUSY` for the call state, and
`PREDIALOG`, `INITIAL`, `EARLY`, `CONFIRMED`, `TERMINATED` for the dialog
state, the latter matching spec §3 "Dialog"). -/

/-- Observable call state (`filters.CallState` as used by sip_call.py). -/
inductive CallState
  | INITIALIZING
  | DAILING
  | RINGING
  | ANSWERED
  | ENDED
  | FAILED
  | BUSY
deriving DecidableEq

/-- Dialog state (`sip_core.DialogState` as used by sip_call.py). -/
inductive DialogState
  | PREDIALOG
  | INITIAL
  | EARLY
  | CONFIRMED
  | TERMINATED
deriving DecidableEq

/-! ### SipCall.stop and SipCall._cleanup_rtp (sip_call.py 117-195) -/

/-- One observable action of the hang-up path of `SipCall.stop` /
`SipCall._cleanup_rtp`, in the order the source awaits them. -/
inductive StopAction
  | clearRunning
  | closeConnections
  | sendCancel
  | sendBye
  | waitTerminated
  | hangedUpCb (cb : Nat) (reason : String)
  | stopMediaSend
  | stopMediaReceive
  | closeRtpSocket
  | awaitRtpTask
deriving DecidableEq, BEq

/-- `SipCall._cleanup_rtp` (sip_call.py 178-195): returns immediately when
there is no RTP session or no RTP task.  The guards are from the source; the
body of `RTPClient._stop` / `_wait_stopped` is not under src (the RTPClient
in src/PySIP/rtp_handler.py is the divergent copy without them).  Modelled
from the spec: §4.G Lifecycle — "`stop` clears the running flag" (which ends
the media send and the media receive loop) "closes the socket, and awaits
both activities to completion"; the final `await _rtp_task` of the source is
`awaitRtpTask`. -/
def cleanup_rtp (hasRtpSession hasRtpTask : Bool) : List StopAction :=
  if ¬ hasRtpSession then []
  else if ¬ hasRtpTask then []
  else [StopAction.stopMediaSend, StopAction.stopMediaReceive,
        StopAction.closeRtpSocket, StopAction.awaitRtpTask]

/-- `SipCall.stop` (sip_call.py 117-176) as the trace of its observable
actions, translated branch by branch: PREDIALOG clears the running flag and
closes the SIP connections; INITIAL/EARLY send CANCEL on the latest
transaction, await the TERMINATED dialog event (5 s timeout) and close;
CONFIRMED sends BYE, awaits the TERMINATED event (5 s timeout) and closes;
TERMINATED performs the same close while logging the repeated-stop warning.
After the branch the source unconditionally awaits every registered
`hanged_up_cb` callback with `reason` and then awaits `_cleanup_rtp`. -/
def stop (st : DialogState) (hangedUpCbs : List Nat) (reason : String)
    (hasRtpSession hasRtpTask : Bool) : List StopAction :=
  (match st with
   | DialogState.PREDIALOG =>
       [StopAction.clearRunning, StopAction.closeConnections]
   | DialogState.INITIAL =>
       [StopAction.sendCancel, StopAction.waitTerminated,
        StopAction.clearRunning, StopAction.closeConnections]
   | DialogState.EARLY =>
       [StopAction.sendCancel, StopAction.waitTerminated,
        StopAction.clearRunning, StopAction.closeConnections]
   | DialogState.CONFIRMED =>
       [StopAction.sendBye, StopAction.waitTerminated,
        StopAction.clearRunning, StopAction.closeConnections]
   | DialogState.TERMINATED =>
       [StopAction.clearRunning, StopAction.closeConnections])
  ++ hangedUpCbs.map (fun cb => StopAction.hangedUpCb cb reason)
  ++ cleanup_rtp hasRtpSession hasRtpTask

/-- Number of `hanged_up_cb` invocations in a stop trace. -/
def hangedUpCount : List StopAction → Nat
  | [] => 0
  | StopAction.hangedUpCb _ _ :: rest => hangedUpCount rest + 1
  | _ :: rest => hangedUpCount rest

/-! ### SipCall.update_call_state and callback registration
(sip_call.py 490-509) -/

/-- One observable action of `update_call_state`: awaiting a registered
`state_changed_cb` callback, or assigning `self.call_state`. -/
inductive UAction
  | invoke (cb : Nat) (s : CallState)
  | assign (s : CallState)
deriving DecidableEq

/-- `SipCall.update_call_state` (sip_call.py 490-498): returns immediately
when the new state equals the current one; otherwise awaits every registered
callback with the new state, in list order, and only then assigns
`self.call_state`.  Result: the action trace and the final `call_state`. -/
def update_call_state (cur : CallState) (cbs : List Nat) (new : CallState) :
    List UAction × CallState :=
  if new = cur then ([], cur)
  else (cbs.map (fun cb => UAction.invoke cb new) ++ [UAction.assign new], new)

/-- `SipCall._register_callback` (sip_call.py 500-501):
`self._callbacks.setdefault(cb_type, []).append(cb)` on the ordered dict,
modelled as an association list. -/
def _register_callback (m : List (String × List Nat)) (cb_type : String)
    (cb : Nat) : List (String × List Nat) :=
  match m with
  | [] => [(cb_type, [cb])]
  | (k, v) :: rest =>
    if k = cb_type then (k, v ++ [cb]) :: rest
    else (k, v) :: _register_callback rest cb_type cb

/-- `SipCall._get_callbacks` (sip_call.py 503-504):
`self._callbacks.get(cb_type, [])`. -/
def _get_callbacks (m : List (String × List Nat)) (cb_type : String) :
    List Nat :=
  match m with
  | [] => []
  | (k, v) :: rest => if k = cb_type then v else _get_callbacks rest cb_type

/-- The callback dictionary after registering the callbacks `cbs` in order
under `cb_type`, starting from the empty dict (as the decorators
`on_call_state_changed` etc. do, one `_register_callback` per decorator
application). -/
def registerAll (cb_type : String) (cbs : List Nat) :
    List (String × List Nat) :=
  cbs.foldl (fun m cb => _register_callback m cb_type cb) []

/-! ### SipCall.error_handler (sip_call.py 436-476) -/

/-- One observable action of `error_handler`: sending the ACK for the error
response, an `update_call_state` action, or an action of the nested
`stop` call. -/
inductive ErrAction
  | sendAck
  | ucs (u : UAction)
  | stopA (a : StopAction)
deriving DecidableEq

/-- Reason phrases of `filters.SIPStatus` for the statuses `error_handler`
treats as busy.  Modelled from the spec: filters.py is not under src;
spec §8 S3 fixes 486 ↦ "Busy Here", and 600/603 carry their RFC 3261
phrases. -/
def sipPhrase (code : Nat) : String :=
  if code = 486 then "Busy Here"
  else if code = 600 then "Busy Everywhere"
  else if code = 603 then "Decline"
  else ""

/-- `SipCall.error_handler` (sip_call.py 436-476), for a response carrying a
status, translated clause by clause: statuses outside 400-699 and the
statuses 401 and 487 return with no action; for 486/600/603 (and likewise
for every other error status, with FAILED in place of BUSY) the handler
returns with no action when `find_transaction` misses, otherwise sends the
ACK, assigns `dialogue.state = TERMINATED`, awaits
`update_call_state(BUSY)`, and awaits `stop(status.phrase)` — which, the
dialog now being TERMINATED, runs its no-op-close branch and then fires the
`hanged_up_cb` callbacks with the phrase.  (`dialogue.update_state` lives in
sip_core.py, not under src; modelled from the spec §3/§4.D lifecycles: on a
final error response of a terminated dialog it leaves the state
TERMINATED.)  Result: action trace, final dialog state, final call state. -/
def error_handler (code : Nat) (found : Bool) (dialog : DialogState)
    (cur : CallState) (stateCbs hangedCbs : List Nat)
    (hasRtpSession hasRtpTask : Bool) :
    List ErrAction × DialogState × CallState :=
  if ¬ (400 ≤ code ∧ code ≤ 699) then ([], dialog, cur)
  else if code = 401 ∨ code = 487 then ([], dialog, cur)
  else if code = 486 ∨ code = 600 ∨ code = 603 then
    if ¬ found then ([], dialog, cur)
    else
      ([ErrAction.sendAck]
        ++ (update_call_state cur stateCbs CallState.BUSY).1.map ErrAction.ucs
        ++ (stop DialogState.TERMINATED hangedCbs (sipPhrase code)
              hasRtpSession hasRtpTask).map ErrAction.stopA,
       DialogState.TERMINATED,
       (update_call_state cur stateCbs CallState.BUSY).2)
  else
    if ¬ found then ([], dialog, cur)
    else
      ([ErrAction.sendAck]
        ++ (update_call_state cur stateCbs CallState.FAILED).1.map ErrAction.ucs
        ++ (stop DialogState.TERMINATED hangedCbs (sipPhrase code)
              hasRtpSession hasRtpTask).map ErrAction.stopA,
       DialogState.TERMINATED,
       (update_call_state cur stateCbs CallState.FAILED).2)

/-- The `(callback, reason)` pairs of the `hanged_up_cb` invocations inside
an `error_handler` trace. -/
def hangedUpInvocations : List ErrAction → List (Nat × String)
  | [] => []
  | ErrAction.stopA (StopAction.hangedUpCb cb r) :: rest =>
      (cb, r) :: hangedUpInvocations rest
  | _ :: rest => hangedUpInvocations rest

/-! ### The 487 branch of SipCall.message_handler (sip_call.py 425-431) -/

/-- `SipDialogue.find_transaction` by branch token.  The dialog's
transaction list is modelled as `(branch_id, method)` pairs; sip_core.py is
not under src, so this is modelled from the spec §3 "Transaction —
identified by the top-Via branch token". -/
def find_transaction : List (Nat × String) → Nat → Option (Nat × String)
  | [], _ => none
  | t :: rest, b => if t.1 = b then some t else find_transaction rest b

/-- The `487 INVITE` branch of `SipCall.message_handler`
(sip_call.py 425-431): look up the transaction by the response's branch;
when absent return with no action; when found, send the ACK generated from
that transaction (`ack_generator` reuses `transaction.branch_id`) and await
`update_call_state(CallState.FAILED)`.  Result: the branch the ACK is sent
on (if any), the `update_call_state` trace, and the final call state. -/
def handle_487 (transactions : List (Nat × String)) (branch : Nat)
    (cur : CallState) (stateCbs : List Nat) :
    Option Nat × List UAction × CallState :=
  match find_transaction transactions branch with
  | none => (none, [], cur)
  | some t =>
    (some t.1, (update_call_state cur stateCbs CallState.FAILED).1,
     (update_call_state cur stateCbs CallState.FAILED).2)

/-! ### The 401 branch of SipCall.message_handler (sip_call.py 371-387) -/

/-- `SipDialogue.AUTH_RETRY_MAX`.  Modelled from the spec: sip_core.py is
not under src; spec §3 gives the dialog "an auth-retry counter (≤ 2)" and
§4.D "If the counter exceeds 2 the dialog terminates". -/
def AUTH_RETRY_MAX : Nat := 2

/-- One observable action of the `401 INVITE` branch of `message_handler`. -/
inductive AuthAction
  | sendAck
  | sendInviteAuth (branch : Nat)
  | setState (s : CallState)
  | stopCall (reason : String)
deriving DecidableEq

/-- The `401 INVITE` branch of `SipCall.message_handler`
(sip_call.py 371-387), for a response whose branch matches a known
transaction: send the ACK on that transaction; if
`auth_retry_count > AUTH_RETRY_MAX` await `stop("Unable to authenticate,
check details")` and return without touching the counter; otherwise resubmit
the INVITE with an Authorization header on the fresh branch `freshBranch`
(`reinvite` → `generate_invite_message(auth=True)` →
`construct_invite_message` with `gen_branch()`), await
`update_call_state(DAILING)` and increment the counter.  The dialog state is
untouched by this branch (`dialogue.update_state` on a 401 is not a
transition — spec §4.D; sip_core.py not under src).  Result: action trace
and new counter value. -/
def handle_401 (count : Nat) (freshBranch : Nat) : List AuthAction × Nat :=
  if count > AUTH_RETRY_MAX then
    ([AuthAction.sendAck,
      AuthAction.stopCall "Unable to authenticate, check details"], count)
  else
    ([AuthAction.sendAck, AuthAction.sendInviteAuth freshBranch,
      AuthAction.setState CallState.DAILING], count + 1)

/-- `n` consecutive `401 INVITE` responses fed to `handle_401`, starting
from counter `count`, with fresh branches `nextBranch`, `nextBranch + 1`,
... for the resubmitted INVITEs. -/
def run_401s : Nat → Nat → Nat → List AuthAction × Nat
  | 0, count, _ => ([], count)
  | n + 1, count, nextBranch =>
    let r := handle_401 count nextBranch
    let rest := run_401s n r.2 (nextBranch + 1)
    (r.1 ++ rest.1, rest.2)

/-- Number of authenticated INVITE resubmissions in a trace. -/
def inviteCount : List AuthAction → Nat
  | [] => 0
  | AuthAction.sendInviteAuth _ :: rest => inviteCount rest + 1
  | _ :: rest => inviteCount rest

/-- Number of `stop` invocations in a trace. -/
def stopCount : List AuthAction → Nat
  | [] => 0
  | AuthAction.stopCall _ :: rest => stopCount rest + 1
  | _ :: rest => stopCount rest

/-- Number of ACKs in a trace. -/
def ackCount : List AuthAction → Nat
  | [] => 0
  | AuthAction.sendAck :: rest => ackCount rest + 1
  | _ :: rest => ackCount rest

/-! ### DTMFHandler.get_dtmf (sip_call.py 646-666) -/

/-- The `finish_on_key` loop of `DTMFHandler.get_dtmf` (sip_call.py
649-656), with the queue modelled as the list of keys in arrival order and
`acc` the `dtmf_codes` accumulator: take the next key; break (returning the
accumulator) only when the accumulator is non-empty AND the key equals the
finish key (`if dtmf_codes and code == finish_on_key`), otherwise append the
key and continue.  `none` models the loop blocking forever on an exhausted
queue. -/
def get_dtmf_finish (finish : String) (acc : List String) :
    List String → Option (List String)
  | [] => none
  | code :: rest =>
    if acc ≠ [] ∧ code = finish then some acc
    else get_dtmf_finish finish (acc ++ [code]) rest

/-- The `length` loop of `DTMFHandler.get_dtmf` (sip_call.py 659-663):
take the next `n` keys from the queue; `none` models blocking on an
exhausted queue. -/
def get_dtmf_length : Nat → List String → Option (List String)
  | 0, _ => some []
  | _ + 1, [] => none
  | n + 1, code :: rest => (get_dtmf_length n rest).map (fun l => code :: l)

/-- `DTMFHandler.get_dtmf` (sip_call.py 646-666) over a queue `stream`: the
`finish_on_key` branch when a finish key is supplied, the `length` branch
otherwise (the source joins the collected keys into a string; the list of
collected keys is returned here). -/
def get_dtmf (stream : List String) (length : Nat)
    (finish_on_key : Option String) : Option (List String) :=
  match finish_on_key with
  | some k => get_dtmf_finish k [] stream
  | none => get_dtmf_length length stream

/-- Specification-side helper: the keys strictly before the first occurrence
of `k` in a key list (spec §4.I: "returns keys until the finish key is
observed (finish key is not included)"). -/
def keysBefore (k : String) : List String → List String
  | [] => []
  | c :: rest => if c = k then [] else c :: keysBefore k rest

/-! ## Theorems -/

/-! ### C1 — RTP sequence/timestamp stepping (rtp_handler.py 177-187) -/

/-- Closed form of the emitted sequence numbers: packet `i` carries
`(s₀ + i) % 65535`, the modulus the source actually uses. -/
theorem seqOfPacket_eq (st : RtpPacketState) (len : Nat)
    (h : st.out_sequence < 65535) :
    ∀ i, seqOfPacket st len i = (st.out_sequence + i) % 65535 := by
  intro i
  induction i with
  | zero =>
    simp only [seqOfPacket, rtpAfter]
    omega
  | succ i ih =>
    have hstep : seqOfPacket st len (i + 1)
        = (seqOfPacket st len i + 1) % 65535 := rfl
    rw [hstep, ih]
    omega

/-- Closed form of the emitted timestamps for 160-byte frames: packet `i`
carries `(t₀ + 160 * i) % 4294967295`, the modulus the source actually
uses. -/
theorem tsOfPacket_eq (st : RtpPacketState)
    (h : st.out_timestamp < 4294967295) :
    ∀ i, tsOfPacket st 160 i = (st.out_timestamp + 160 * i) % 4294967295 := by
  intro i
  induction i with
  | zero =>
    simp only [tsOfPacket, rtpAfter]
    omega
  | succ i ih =>
    have hstep : tsOfPacket st 160 (i + 1)
        = (tsOfPacket st 160 i + 160) % 4294967295 := rfl
    rw [hstep, ih]
    omega

/-- C1: the claim "consecutive packets carry sequence numbers that increase
by exactly 1 modulo 2^16 ... and timestamps that increase by exactly 160 per
160-byte frame modulo 2^32" fails on the code: `get_header` advances the
sequence with `% 65535` and the timestamp with `% 4294967295` (one less than
the RFC 3550 moduli the claim states, despite the source's own "Wrap around
at 2^16 - 1" intent comments).  From the in-range initial state
`(seq, ts) = (800, 500)`, packets 64734 and 64735 of a 160-byte-frame send
carry sequence numbers 65534 and 0 — a step of 2 mod 2^16 (65535 is
skipped) — and packets 26843542 and 26843543 carry timestamps 4294967220
and 85 — a step of 161 mod 2^32. -/
theorem rtp_wrap_modulus_bug :
    seqOfPacket ⟨800, 500, 3000⟩ 160 64734 = 65534 ∧
    seqOfPacket ⟨800, 500, 3000⟩ 160 64735 = 0 ∧
    (seqOfPacket ⟨800, 500, 3000⟩ 160 64735 + 2 ^ 16
      - seqOfPacket ⟨800, 500, 3000⟩ 160 64734) % 2 ^ 16 = 2 ∧
    tsOfPacket ⟨800, 500, 3000⟩ 160 26843542 = 4294967220 ∧
    tsOfPacket ⟨800, 500, 3000⟩ 160 26843543 = 85 ∧
    (tsOfPacket ⟨800, 500, 3000⟩ 160 26843543 + 2 ^ 32
      - tsOfPacket ⟨800, 500, 3000⟩ 160 26843542) % 2 ^ 32 = 161 := by
  have hs := seqOfPacket_eq ⟨800, 500, 3000⟩ 160 (by norm_num)
  have ht := tsOfPacket_eq ⟨800, 500, 3000⟩ (by norm_num)
  rw [hs 64734, hs 64735, ht 26843542, ht 26843543]
  norm_num

/-! ### C2 — one DTMF callback invocation per key press
(rtp_handler.py 80-98) -/

/-- Every event byte below 16 has an entry in `dtmf_mapping`. -/
theorem dtmf_mapping_total :
    ∀ b, b < 16 → (dtmf_mapping.get? b).isSome = true := by decide

/-- A telephone-event packet whose marker bit is clear (every packet of a
press after the first, including the end-bit packet and its retransmitted
copies) makes `_handle_rfc_2833` return before any callback runs. -/
theorem handle_rfc_2833_no_marker (dict : List (String × List Nat))
    (p : RtpEventPacket) (hm : p.marker = false)
    (hp : p.payload ≠ [] ∧ p.payload.headI < 16) :
    handle_rfc_2833 dict p = some [] := by
  obtain ⟨hne, hlt⟩ := hp
  cases hpl : p.payload with
  | nil => exact absurd hpl hne
  | cons b l =>
    have hb : b < 16 := by rw [hpl] at hlt; simpa [List.headI] using hlt
    obtain ⟨ev, hev⟩ := Option.isSome_iff_exists.mp (dtmf_mapping_total b hb)
    rw [List.get?_eq_getElem?] at hev
    unfold handle_rfc_2833
    rw [hpl]
    simp [hev, hm]

/-- A run of marker-clear telephone-event packets produces no callback
invocation at all. -/
theorem handlePackets_no_marker (dict : List (String × List Nat)) :
    ∀ ps : List RtpEventPacket, (∀ p ∈ ps, p.marker = false) →
      (∀ p ∈ ps, p.payload ≠ [] ∧ p.payload.headI < 16) →
      handlePackets dict ps = some [] := by
  intro ps
  induction ps with
  | nil => intro _ _; rfl
  | cons p ps ih =>
    intro h1 h2
    have hp := handle_rfc_2833_no_marker dict p (h1 p (by simp))
      (h2 p (by simp))
    have hps := ih (fun q hq => h1 q (by simp [hq]))
      (fun q hq => h2 q (by simp [hq]))
    simp [handlePackets, hp, hps]

/-- C2: a DTMF key press spanning `M` telephone-event packets — the first
packet carrying the RTP marker bit, all later packets (in particular the
end-bit packet and its retransmitted copies, which share its RTP timestamp)
with the marker clear, per RFC 2833 §3.6 — causes exactly one invocation of
every registered `dtmf_callback` (`on_dtmf_received`) callback:
`_handle_rfc_2833` fires the callbacks for the marker packet only and
returns early on all the others, so the invocation list is exactly one
`(cb, event)` pair per registered callback. -/
theorem dtmf_key_press_single_invocation (dict : List (String × List Nat))
    (cbs : List Nat) (p0 : RtpEventPacket) (rest : List RtpEventPacket)
    (hm : p0.marker = true)
    (hr : ∀ p ∈ rest, p.marker = false)
    (hpl : ∀ p ∈ p0 :: rest, p.payload ≠ [] ∧ p.payload.headI < 16)
    (hd : dict ≠ [])
    (hl : lookupCb dict "dtmf_callback" = some cbs)
    (hc : cbs ≠ []) :
    ∃ ev, handlePackets dict (p0 :: rest)
      = some (cbs.map (fun cb => (cb, ev))) := by
  have hrest : handlePackets dict rest = some [] :=
    handlePackets_no_marker dict rest hr
      (fun q hq => hpl q (by simp [hq]))
  obtain ⟨hne, hlt⟩ := hpl p0 (by simp)
  cases hpl0 : p0.payload with
  | nil => exact absurd hpl0 hne
  | cons b l =>
    have hb : b < 16 := by rw [hpl0] at hlt; simpa [List.headI] using hlt
    obtain ⟨ev, hev⟩ := Option.isSome_iff_exists.mp (dtmf_mapping_total b hb)
    rw [List.get?_eq_getElem?] at hev
    have hhead : handle_rfc_2833 dict p0
        = some (cbs.map (fun cb => (cb, ev))) := by
      unfold handle_rfc_2833
      rw [hpl0]
      simp [hev, hm, hd, hl, hc]
    exact ⟨ev, by simp [handlePackets, hhead, hrest]⟩

/-- C2 witness: the spec's S5 scenario — digit "5", three packets with the
end-bit set on the third, plus two retransmissions of the end-bit packet —
with one registered callback yields exactly one invocation. -/
theorem dtmf_key_press_single_invocation_witness :
    ∃ ev, handlePackets [("dtmf_callback", [0])]
      [⟨true, [5, 10, 0, 160]⟩, ⟨false, [5, 10, 1, 64]⟩,
       ⟨false, [5, 138, 2, 224]⟩, ⟨false, [5, 138, 2, 224]⟩,
       ⟨false, [5, 138, 2, 224]⟩]
      = some ([0].map (fun cb => (cb, ev))) := by
  exact dtmf_key_press_single_invocation [("dtmf_callback", [0])] [0]
    ⟨true, [5, 10, 0, 160]⟩
    [⟨false, [5, 10, 1, 64]⟩, ⟨false, [5, 138, 2, 224]⟩,
     ⟨false, [5, 138, 2, 224]⟩, ⟨false, [5, 138, 2, 224]⟩]
    rfl (by decide) (by decide) (by decide) rfl (by decide)

/-! ### C6 — codec selection (rtp_handler.py 33-63) -/

/-- C6: `select_audio_codecs` returns `none` — i.e. `RTPClient.__init__`
raises `NoSupportedCodecsFound` — exactly when no payload type of the
remote's offered rtpmap is PCMU or PCMA; and any selected payload type is
one the remote offered (and is PCMU or PCMA). -/
theorem select_audio_codecs_spec (offered : List PayloadType) :
    (select_audio_codecs offered = none ↔
      ∀ c ∈ offered,
        ¬ (c = PayloadType.PCMU ∨ c = PayloadType.PCMA)) ∧
    (∀ c, select_audio_codecs offered = some c →
      c ∈ offered ∧ (c = PayloadType.PCMU ∨ c = PayloadType.PCMA)) := by
  induction offered with
  | nil => simp [select_audio_codecs]
  | cons c rest ih =>
    have hmem : c ∈ SUPPORTED_CODEC ↔
        (c = PayloadType.PCMU ∨ c = PayloadType.PCMA) := by
      simp [SUPPORTED_CODEC]
    by_cases hc : c ∈ SUPPORTED_CODEC
    · constructor
      · constructor
        · intro h
          simp [select_audio_codecs, hc] at h
        · intro h
          exact absurd (hmem.mp hc) (h c (by simp))
      · intro d hd
        simp only [select_audio_codecs, if_pos hc, Option.some.injEq] at hd
        subst hd
        exact ⟨by simp, hmem.mp hc⟩
    · constructor
      · rw [show select_audio_codecs (c :: rest) = select_audio_codecs rest
            from by simp [select_audio_codecs, hc]]
        rw [ih.1]
        simp only [List.forall_mem_cons]
        constructor
        · intro h
          exact ⟨fun hcpcm => hc (hmem.mpr hcpcm), h⟩
        · intro h
          exact h.2
      · intro d hd
        rw [show select_audio_codecs (c :: rest) = select_audio_codecs rest
            from by simp [select_audio_codecs, hc]] at hd
        obtain ⟨h1, h2⟩ := ih.2 d hd
        exact ⟨by simp [h1], h2⟩

/-- C6 witness: a remote offering EVENT then PCMA selects PCMA, which is in
the offer; a remote offering only G.722 (payload type 9) shares no codec
with `SUPPORTED_CODEC`. -/
theorem select_audio_codecs_spec_witness :
    (PayloadType.PCMA ∈ [PayloadType.EVENT, PayloadType.PCMA] ∧
      (PayloadType.PCMA = PayloadType.PCMU ∨
        PayloadType.PCMA = PayloadType.PCMA)) ∧
    ¬ (PayloadType.other 9 = PayloadType.PCMU ∨
        PayloadType.other 9 = PayloadType.PCMA) := by
  refine ⟨?_, ?_⟩
  · exact (select_audio_codecs_spec
      [PayloadType.EVENT, PayloadType.PCMA]).2 PayloadType.PCMA (by decide)
  · exact (select_audio_codecs_spec [PayloadType.other 9]).1.mp (by decide)
      (PayloadType.other 9) (by simp)

/-! ### C3 / C5 — SipCall.stop traces -/

/-- `hangedUpCount` distributes over trace concatenation. -/
theorem hangedUpCount_append (a b : List StopAction) :
    hangedUpCount (a ++ b) = hangedUpCount a + hangedUpCount b := by
  induction a with
  | nil => simp [hangedUpCount]
  | cons x rest ih =>
    cases x <;> simp [hangedUpCount, ih] <;> omega

/-- The `hanged_up_cb` loop of `stop` fires one callback per registration. -/
theorem hangedUpCount_map (cbs : List Nat) (r : String) :
    hangedUpCount (cbs.map (fun cb => StopAction.hangedUpCb cb r))
      = cbs.length := by
  induction cbs with
  | nil => simp [hangedUpCount]
  | cons c rest ih => simp [hangedUpCount, ih]

/-- `_cleanup_rtp` never fires a `hanged_up_cb` callback. -/
theorem hangedUpCount_cleanup (hs ht : Bool) :
    hangedUpCount (cleanup_rtp hs ht) = 0 := by
  cases hs <;> cases ht <;> simp [cleanup_rtp, hangedUpCount]

/-- Every single `stop` call — whatever the dialog state — awaits each
registered `hanged_up_cb` callback exactly once. -/
theorem stop_hangedUpCount (st : DialogState) (cbs : List Nat) (r : String)
    (hs ht : Bool) : hangedUpCount (stop st cbs r hs ht) = cbs.length := by
  cases st <;>
    simp [stop, hangedUpCount_append, hangedUpCount_map,
      hangedUpCount_cleanup, hangedUpCount]

/-- C3 counterexample: one registered `hanged_up_cb` callback, a first
`stop` on a confirmed dialog and a second `stop` on the then-terminated
dialog yield two callback invocations — the claim requires exactly one
across the two calls, but the source fires the callbacks unconditionally at
the end of every `stop` call. -/
theorem stop_twice_two_hangups :
    hangedUpCount
      (stop DialogState.CONFIRMED [0] "Normal Stop" true true
        ++ stop DialogState.TERMINATED [0] "Normal Stop" true true) = 2 := by
  decide

/-- C3 amended: a second `stop` on an already-Terminated dialog does perform
only the no-op close on the SIP side (no BYE, no CANCEL is sent), but the
`hanged_up_cb` callbacks are not deduplicated: every `stop` call fires each
registered callback once, so two calls fire them twice. -/
theorem stop_repeat_noop_close_callbacks_each_call (st : DialogState)
    (cbs : List Nat) (r1 r2 : String) (hs1 ht1 hs2 ht2 : Bool) :
    StopAction.sendBye ∉ stop DialogState.TERMINATED cbs r2 hs2 ht2 ∧
    StopAction.sendCancel ∉ stop DialogState.TERMINATED cbs r2 hs2 ht2 ∧
    hangedUpCount (stop st cbs r1 hs1 ht1
      ++ stop DialogState.TERMINATED cbs r2 hs2 ht2) = 2 * cbs.length := by
  refine ⟨?_, ?_, ?_⟩
  · cases hs2 <;> cases ht2 <;> simp [stop, cleanup_rtp]
  · cases hs2 <;> cases ht2 <;> simp [stop, cleanup_rtp]
  · rw [hangedUpCount_append, stop_hangedUpCount, stop_hangedUpCount]
    omega

/-- C3 amended witness: concrete first and second stop call, one registered
callback. -/
theorem stop_repeat_noop_close_callbacks_each_call_witness :
    StopAction.sendBye
        ∉ stop DialogState.TERMINATED [4] "second stop" false false ∧
    StopAction.sendCancel
        ∉ stop DialogState.TERMINATED [4] "second stop" false false ∧
    hangedUpCount (stop DialogState.CONFIRMED [4] "first stop" true true
      ++ stop DialogState.TERMINATED [4] "second stop" false false) = 2 := by
  have h := stop_repeat_noop_close_callbacks_each_call DialogState.CONFIRMED
    [4] "first stop" "second stop" true true false false
  simpa using h

/-- C5 counterexample: on a confirmed call with one registered callback and
a live RTP session, the `stop` trace sends BYE before any media teardown
action, and fires the `hanged_up_cb` callback before the RTP socket is
closed — the claim requires media send/receive stop and RTP socket close
before the BYE, and the callbacks only after everything else. -/
theorem teardown_order_counterexample :
    (stop DialogState.CONFIRMED [0] "normal" true true).indexOf
        StopAction.sendBye
      < (stop DialogState.CONFIRMED [0] "normal" true true).indexOf
        StopAction.stopMediaSend ∧
    (stop DialogState.CONFIRMED [0] "normal" true true).indexOf
        (StopAction.hangedUpCb 0 "normal")
      < (stop DialogState.CONFIRMED [0] "normal" true true).indexOf
        StopAction.closeRtpSocket := by
  decide

/-- C5 amended: on hang-up of a confirmed call with a live RTP session the
teardown order of `stop` is: BYE sent, then the 200 awaited via the
TERMINATED dialog event (or 5 s timeout), then the SIP running flag cleared
and the SIP transport closed, then the `hanged_up_cb` callbacks fired in
registration order, and only after all of that the media send and receive
loops stopped, the RTP socket closed, and the RTP task awaited. -/
theorem teardown_order_confirmed (cbs : List Nat) (r : String) :
    stop DialogState.CONFIRMED cbs r true true =
      [StopAction.sendBye, StopAction.waitTerminated,
       StopAction.clearRunning, StopAction.closeConnections]
      ++ cbs.map (fun cb => StopAction.hangedUpCb cb r)
      ++ [StopAction.stopMediaSend, StopAction.stopMediaReceive,
          StopAction.closeRtpSocket, StopAction.awaitRtpTask] ∧
    hangedUpCount (stop DialogState.CONFIRMED cbs r true true)
      = cbs.length := by
  exact ⟨by simp [stop, cleanup_rtp], stop_hangedUpCount _ _ _ _ _⟩

/-- C5 amended witness: one registered callback, live RTP session. -/
theorem teardown_order_confirmed_witness :
    stop DialogState.CONFIRMED [2] "bye now" true true =
      [StopAction.sendBye, StopAction.waitTerminated,
       StopAction.clearRunning, StopAction.closeConnections,
       StopAction.hangedUpCb 2 "bye now", StopAction.stopMediaSend,
       StopAction.stopMediaReceive, StopAction.closeRtpSocket,
       StopAction.awaitRtpTask] ∧
    hangedUpCount (stop DialogState.CONFIRMED [2] "bye now" true true)
      = 1 := by
  have h := teardown_order_confirmed [2] "bye now"
  simpa using h

/-! ### C10 — update_call_state and callback registration -/

/-- `_register_callback` appends the new callback at the end of its type's
list. -/
theorem get_register (m : List (String × List Nat)) (t : String) (cb : Nat) :
    _get_callbacks (_register_callback m t cb) t
      = _get_callbacks m t ++ [cb] := by
  induction m with
  | nil => simp [_register_callback, _get_callbacks]
  | cons kv rest ih =>
    obtain ⟨k, v⟩ := kv
    by_cases hk : k = t
    · simp [_register_callback, _get_callbacks, hk]
    · simp [_register_callback, _get_callbacks, hk, ih]

/-- Registering callbacks one by one preserves registration order. -/
theorem get_registerAll (t : String) (cbs : List Nat) :
    _get_callbacks (registerAll t cbs) t = cbs := by
  have h : ∀ (cbs : List Nat) (m : List (String × List Nat)),
      _get_callbacks (cbs.foldl (fun m cb => _register_callback m t cb) m) t
        = _get_callbacks m t ++ cbs := by
    intro cbs
    induction cbs with
    | nil => intro m; simp
    | cons c rest ih =>
      intro m
      simp only [List.foldl_cons]
      rw [ih, get_register]
      simp
  simpa [registerAll, _get_callbacks] using h cbs []

/-- C10: with the `state_changed_cb` callbacks registered in order,
`update_call_state` is a no-op when the new state equals the current one (no
callback runs, `call_state` unchanged), and otherwise awaits every
registered callback with the new state, in registration order, before
assigning `call_state`. -/
theorem update_call_state_spec (cur new : CallState) (cbs : List Nat) :
    (new = cur →
      update_call_state cur
        (_get_callbacks (registerAll "state_changed_cb" cbs)
          "state_changed_cb") new
        = ([], cur)) ∧
    (new ≠ cur →
      update_call_state cur
        (_get_callbacks (registerAll "state_changed_cb" cbs)
          "state_changed_cb") new
        = (cbs.map (fun cb => UAction.invoke cb new)
            ++ [UAction.assign new], new)) := by
  rw [get_registerAll]
  constructor
  · intro h
    simp [update_call_state, h]
  · intro h
    simp [update_call_state, h]

/-- C10 witness: two callbacks registered in order, a real state change. -/
theorem update_call_state_spec_witness :
    update_call_state CallState.INITIALIZING
      (_get_callbacks (registerAll "state_changed_cb" [3, 5])
        "state_changed_cb") CallState.DAILING
      = ([UAction.invoke 3 CallState.DAILING,
          UAction.invoke 5 CallState.DAILING,
          UAction.assign CallState.DAILING], CallState.DAILING) := by
  have h := (update_call_state_spec CallState.INITIALIZING CallState.DAILING
    [3, 5]).2 (by decide)
  simpa using h

/-! ### C7 — busy final responses (sip_call.py 436-476) -/

/-- `hangedUpInvocations` distributes over trace concatenation. -/
theorem hangedUpInvocations_append (a b : List ErrAction) :
    hangedUpInvocations (a ++ b)
      = hangedUpInvocations a ++ hangedUpInvocations b := by
  induction a with
  | nil => simp [hangedUpInvocations]
  | cons x rest ih =>
    cases x with
    | sendAck => simp [hangedUpInvocations, ih]
    | ucs u => simp [hangedUpInvocations, ih]
    | stopA a => cases a <;> simp [hangedUpInvocations, ih]

/-- `update_call_state` actions contain no `hanged_up_cb` invocation. -/
theorem hangedUpInvocations_ucs (l : List UAction) :
    hangedUpInvocations (l.map ErrAction.ucs) = [] := by
  induction l with
  | nil => simp [hangedUpInvocations]
  | cons u rest ih => simp [hangedUpInvocations, ih]

/-- The mapped `hanged_up_cb` segment of a `stop` trace contributes one
`(cb, reason)` pair per registered callback. -/
theorem hangedUpInvocations_hu_map (cbs : List Nat) (r : String) :
    hangedUpInvocations
      (cbs.map (fun cb => ErrAction.stopA (StopAction.hangedUpCb cb r)))
      = cbs.map (fun cb => (cb, r)) := by
  induction cbs with
  | nil => rfl
  | cons c rest ih => simp [hangedUpInvocations, ih]

/-- The mapped `state_changed_cb` segment contributes no hang-up pair. -/
theorem hangedUpInvocations_invoke_map (cbs : List Nat) (s : CallState) :
    hangedUpInvocations
      (cbs.map (fun cb => ErrAction.ucs (UAction.invoke cb s))) = [] := by
  induction cbs with
  | nil => rfl
  | cons c rest ih => simp [hangedUpInvocations, ih]

/-- The `_cleanup_rtp` segment contributes no hang-up pair. -/
theorem hangedUpInvocations_cleanup (hs ht : Bool) :
    hangedUpInvocations ((cleanup_rtp hs ht).map ErrAction.stopA) = [] := by
  cases hs <;> cases ht <;> simp [cleanup_rtp, hangedUpInvocations]

/-- The nested `stop` call of `error_handler` fires each registered
`hanged_up_cb` callback exactly once with the given reason. -/
theorem hangedUpInvocations_stop (cbs : List Nat) (r : String)
    (hs ht : Bool) :
    hangedUpInvocations
      ((stop DialogState.TERMINATED cbs r hs ht).map ErrAction.stopA)
      = cbs.map (fun cb => (cb, r)) := by
  simp [stop, hangedUpInvocations_append, hangedUpInvocations,
    hangedUpInvocations_cleanup, Function.comp_def,
    hangedUpInvocations_hu_map]

/-- C7: on a 486, 600 or 603 final response whose branch matches a known
transaction, `error_handler` sends the ACK first, terminates the dialog,
moves the observable call state to BUSY, and — through the nested `stop`
call — hands every registered `hanged_up_cb` callback the response's reason
phrase, which for 486 is "Busy Here". -/
theorem busy_final_response_spec (code : Nat) (dialog : DialogState)
    (cur : CallState) (stateCbs hangedCbs : List Nat) (hs ht : Bool)
    (hcode : code = 486 ∨ code = 600 ∨ code = 603)
    (hcur : cur ≠ CallState.BUSY) :
    (error_handler code true dialog cur stateCbs hangedCbs hs ht).2.1
        = DialogState.TERMINATED ∧
    (error_handler code true dialog cur stateCbs hangedCbs hs ht).2.2
        = CallState.BUSY ∧
    (error_handler code true dialog cur stateCbs hangedCbs hs ht).1.head?
        = some ErrAction.sendAck ∧
    hangedUpInvocations
        (error_handler code true dialog cur stateCbs hangedCbs hs ht).1
      = hangedCbs.map (fun cb => (cb, sipPhrase code)) ∧
    sipPhrase 486 = "Busy Here" := by
  have hcur2 : CallState.BUSY ≠ cur := Ne.symm hcur
  rcases hcode with h | h | h <;> subst h <;>
    refine ⟨?_, ?_, ?_, ?_, rfl⟩ <;>
    simp [error_handler, update_call_state, hcur2,
      hangedUpInvocations_append, hangedUpInvocations_invoke_map,
      hangedUpInvocations_stop, hangedUpInvocations, stop,
      hangedUpInvocations_cleanup, hangedUpInvocations_hu_map,
      Function.comp_def]

/-- C7 witness: a 486 while ringing, one state callback and one hang-up
callback registered. -/
theorem busy_final_response_spec_witness :
    (error_handler 486 true DialogState.INITIAL CallState.RINGING
        [0] [1] true true).2.1 = DialogState.TERMINATED ∧
    (error_handler 486 true DialogState.INITIAL CallState.RINGING
        [0] [1] true true).2.2 = CallState.BUSY ∧
    (error_handler 486 true DialogState.INITIAL CallState.RINGING
        [0] [1] true true).1.head? = some ErrAction.sendAck ∧
    hangedUpInvocations
        (error_handler 486 true DialogState.INITIAL CallState.RINGING
          [0] [1] true true).1 = [(1, "Busy Here")] ∧
    sipPhrase 486 = "Busy Here" := by
  have h := busy_final_response_spec 486 DialogState.INITIAL
    CallState.RINGING [0] [1] true true (Or.inl rfl) (by decide)
  simpa [sipPhrase] using h

/-! ### C9 — the 487 branch of message_handler (sip_call.py 425-431) -/

/-- A transaction found by branch carries that branch. -/
theorem find_transaction_branch :
    ∀ (ts : List (Nat × String)) (b : Nat) (t : Nat × String),
      find_transaction ts b = some t → t.1 = b := by
  intro ts
  induction ts with
  | nil => intro b t h; simp [find_transaction] at h
  | cons x rest ih =>
    intro b t h
    by_cases hx : x.1 = b
    · simp only [find_transaction, if_pos hx, Option.some.injEq] at h
      rw [← h]
      exact hx
    · exact ih b t (by simpa [find_transaction, hx] using h)

/-- C9 counterexample: with the INVITE transaction found on branch 7 and the
call ringing, the 487 handler leaves the observable call state FAILED, not
ENDED as the claim states. -/
theorem response_487_sets_failed_not_ended :
    (handle_487 [(7, "INVITE")] 7 CallState.RINGING [0]).2.2
        = CallState.FAILED ∧
    CallState.FAILED ≠ CallState.ENDED := by
  decide

/-- C9 amended: after the caller cancels while ringing, receipt of the 487
for the INVITE with a matching transaction sends the ACK on that
transaction's branch and moves the observable call state to FAILED (not
Ended): the state callbacks are awaited with FAILED and `call_state` is
assigned FAILED. -/
theorem handle_487_spec (ts : List (Nat × String)) (b : Nat)
    (cur : CallState) (cbs : List Nat) (t : Nat × String)
    (hf : find_transaction ts b = some t)
    (hcur : cur ≠ CallState.FAILED) :
    handle_487 ts b cur cbs
      = (some b,
         cbs.map (fun cb => UAction.invoke cb CallState.FAILED)
           ++ [UAction.assign CallState.FAILED],
         CallState.FAILED) := by
  have hb : t.1 = b := find_transaction_branch ts b t hf
  have hcur2 : CallState.FAILED ≠ cur := Ne.symm hcur
  simp [handle_487, hf, hb, update_call_state, hcur2]

/-- C9 amended witness: concrete transaction list, branch and callback. -/
theorem handle_487_spec_witness :
    handle_487 [(7, "INVITE")] 7 CallState.RINGING [0]
      = (some 7,
         [UAction.invoke 0 CallState.FAILED,
          UAction.assign CallState.FAILED],
         CallState.FAILED) := by
  have h := handle_487_spec [(7, "INVITE")] 7 CallState.RINGING [0]
    (7, "INVITE") (by decide) (by decide)
  simpa using h

/-! ### C4 — 401 authentication retries (sip_call.py 371-387) -/

/-- `inviteCount` distributes over trace concatenation. -/
theorem inviteCount_append (a b : List AuthAction) :
    inviteCount (a ++ b) = inviteCount a + inviteCount b := by
  induction a with
  | nil => simp [inviteCount]
  | cons x rest ih => cases x <;> simp [inviteCount, ih] <;> omega

/-- `stopCount` distributes over trace concatenation. -/
theorem stopCount_append (a b : List AuthAction) :
    stopCount (a ++ b) = stopCount a + stopCount b := by
  induction a with
  | nil => simp [stopCount]
  | cons x rest ih => cases x <;> simp [stopCount, ih] <;> omega

/-- `ackCount` distributes over trace concatenation. -/
theorem ackCount_append (a b : List AuthAction) :
    ackCount (a ++ b) = ackCount a + ackCount b := by
  induction a with
  | nil => simp [ackCount]
  | cons x rest ih => cases x <;> simp [ackCount, ih] <;> omega

/-- Counting actions over a run of consecutive 401s from an arbitrary
counter value: each 401 is ACKed; an authenticated INVITE is resubmitted
while the counter is at most 2, i.e. `min n (3 - c)` times; every later 401
invokes `stop` instead. -/
theorem run_401s_counts : ∀ (n c b : Nat),
    inviteCount (run_401s n c b).1 = min n (3 - c) ∧
    stopCount (run_401s n c b).1 = n - (3 - c) ∧
    ackCount (run_401s n c b).1 = n := by
  intro n
  induction n with
  | zero =>
    intro c b
    simp [run_401s, inviteCount, stopCount, ackCount]
  | succ n ih =>
    intro c b
    by_cases h : c > 2
    · have hstep : handle_401 c b
          = ([AuthAction.sendAck,
              AuthAction.stopCall "Unable to authenticate, check details"],
             c) := by
        simp [handle_401, AUTH_RETRY_MAX, h]
      obtain ⟨h1, h2, h3⟩ := ih c (b + 1)
      refine ⟨?_, ?_, ?_⟩ <;>
        simp [run_401s, hstep, inviteCount_append, stopCount_append,
          ackCount_append, inviteCount, stopCount, ackCount, h1, h2, h3] <;>
        omega
    · have hstep : handle_401 c b
          = ([AuthAction.sendAck, AuthAction.sendInviteAuth b,
              AuthAction.setState CallState.DAILING], c + 1) := by
        simp [handle_401, AUTH_RETRY_MAX, h]
      obtain ⟨h1, h2, h3⟩ := ih (c + 1) (b + 1)
      refine ⟨?_, ?_, ?_⟩ <;>
        simp [run_401s, hstep, inviteCount_append, stopCount_append,
          ackCount_append, inviteCount, stopCount, ackCount, h1, h2, h3] <;>
        omega

/-- C4 counterexample: three consecutive 401s, starting from a fresh
auth-retry counter, each trigger a resubmitted authenticated INVITE — three
resubmissions with no termination, where the claim allows at most two.  The
counter check `auth_retry_count > AUTH_RETRY_MAX` runs before the increment,
so counter values 0, 1 and 2 all pass it. -/
theorem auth_retry_three_resubmits :
    inviteCount (run_401s 3 0 0).1 = 3 ∧
    stopCount (run_401s 3 0 0).1 = 0 := by
  decide

/-- C4 amended: every 401 on the INVITE is ACKed, and the INVITE is
resubmitted with an Authorization header on a fresh branch at most 3 times
(not 2): over `n` consecutive 401s from a fresh counter there are exactly
`min n 3` resubmissions, and from the fourth consecutive 401 on the handler
instead invokes `stop` with reason "Unable to authenticate, check details"
and sends no further INVITE. -/
theorem auth_retry_resubmits_three (n b : Nat) :
    inviteCount (run_401s n 0 b).1 = min n 3 ∧
    stopCount (run_401s n 0 b).1 = n - 3 ∧
    ackCount (run_401s n 0 b).1 = n := by
  have h := run_401s_counts n 0 b
  simpa using h

/-- C4 amended witness: five consecutive 401s yield three resubmissions,
two terminations-by-stop, five ACKs. -/
theorem auth_retry_resubmits_three_witness :
    inviteCount (run_401s 5 0 10).1 = 3 ∧
    stopCount (run_401s 5 0 10).1 = 2 ∧
    ackCount (run_401s 5 0 10).1 = 5 := by
  obtain ⟨h1, h2, h3⟩ := auth_retry_resubmits_three 5 10
  refine ⟨?_, ?_, ?_⟩ <;> omega

/-! ### C8 — DTMFHandler.get_dtmf (sip_call.py 646-666) -/

/-- The `length` loop returns exactly the next `n` keys of the queue. -/
theorem get_dtmf_length_take : ∀ (n : Nat) (s : List String),
    n ≤ s.length → get_dtmf_length n s = some (s.take n) := by
  intro n
  induction n with
  | zero => intro s _; simp [get_dtmf_length]
  | succ n ih =>
    intro s h
    cases s with
    | nil => simp at h
    | cons c rest =>
      have hr := ih rest (by simpa using h)
      simp [get_dtmf_length, hr]

/-- The `finish_on_key` loop, once the accumulator is non-empty, stops at
the first later occurrence of the finish key and returns the accumulator
extended by the keys before it. -/
theorem get_dtmf_finish_loop (k : String) :
    ∀ (s acc : List String), acc ≠ [] →
      get_dtmf_finish k acc s
        = if k ∈ s then some (acc ++ keysBefore k s) else none := by
  intro s
  induction s with
  | nil =>
    intro acc _
    simp [get_dtmf_finish]
  | cons c rest ih =>
    intro acc h
    by_cases hck : c = k
    · subst hck
      simp [get_dtmf_finish, h, keysBefore]
    · have hrec := ih (acc ++ [c]) (by simp)
      have hne : ¬ (k = c) := fun hkc => hck hkc.symm
      simp only [get_dtmf_finish, keysBefore, if_neg hck, List.mem_cons]
      rw [if_neg (by simp [h, hck])]
      rw [hrec]
      by_cases hk : k ∈ rest
      · simp [hk, hne]
      · simp [hk, hne]

/-- C8 counterexample: with the queue delivering the keys "#", "1", "#" and
`finish_on_key="#"`, `get_dtmf` returns the keys "#1" — the claim requires
the keys before the first occurrence of "#", i.e. no key at all, and
requires that "#" itself never be included; the loop's
`if dtmf_codes and code == finish_on_key` guard makes a leading finish key
fall through to the append branch. -/
theorem get_dtmf_leading_finish_key :
    get_dtmf ["#", "1", "#"] 1 (some "#") = some ["#", "1"] ∧
    "#" ∈ (["#", "1"] : List String) := by
  decide

/-- C8 amended: `get_dtmf(length=N)` returns exactly the next `N` keys of
the queue; `get_dtmf(finish_on_key=k)` always collects the first key — even
when it equals `k` — and then returns it followed by the subsequent keys
before the next occurrence of `k` (so `k` terminates collection only from
the second key onward, and a leading `k` appears in the result). -/
theorem get_dtmf_spec (stream rest : List String) (c k : String) (n : Nat) :
    (n ≤ stream.length → get_dtmf stream n none = some (stream.take n)) ∧
    (k ∈ rest →
      get_dtmf (c :: rest) n (some k)
        = some (c :: keysBefore k rest)) := by
  constructor
  · intro h
    exact get_dtmf_length_take n stream h
  · intro hk
    have hstep : get_dtmf (c :: rest) n (some k)
        = get_dtmf_finish k [c] rest := by
      simp [get_dtmf, get_dtmf_finish]
    rw [hstep, get_dtmf_finish_loop k rest [c] (by simp)]
    simp [hk]

/-- C8 amended witness: `length=2` takes the next two keys; with
`finish_on_key="#"` the queue "5", "1", "#", "9" yields "51". -/
theorem get_dtmf_spec_witness :
    get_dtmf ["1", "2", "3"] 2 none = some ["1", "2"] ∧
    get_dtmf ["5", "1", "#", "9"] 2 (some "#") = some ["5", "1"] := by
  constructor
  · exact (get_dtmf_spec ["1", "2", "3"] ["1", "#", "9"] "5" "#" 2).1
      (by decide)
  · have h := (get_dtmf_spec ["1", "2", "3"] ["1", "#", "9"] "5" "#" 2).2
      (by decide)
    simpa [keysBefore] using h

end PySIP
